import Mathlib

/-! Verification development for the Blender 3.4 script
"Armature Animation Rotate" (src/Blender/3.4/Armature Animation Rotate.py).

The script is a straight-line sequence of scene-graph operations: it
duplicates the selected armature twice ('Bake' and 'Updated'), archives the
original action in an NLA track of 'Updated', pins every pose bone of 'Bake'
to the matching bone of the selected ('parent') armature via full-influence
copy-rotation and copy-location constraints, temporarily rotates the parent
about Z, bakes frames 1..frame_range[1] into a fresh action on 'Bake',
archives that action in a second NLA track of 'Updated', restores the
parent's rotation and deletes 'Bake'.

The embedding below models the Blender scene as explicit state (a list of
objects plus a store of action data-blocks addressed by numeric ids, which
play the role of data-block pointers) and the script as a state transformer.
Rigid transforms are kept abstract: they live in an arbitrary group `G`
together with a homomorphic family `rotZ : rational angle -> G` of rotations
about the vertical axis.  Angles are measured in degrees throughout; the
`radians` unit conversion of the source is absorbed into the interpretation
of `rotZ` (it is a fixed linear reparameterisation of the angle axis, so no
claim is sensitive to it).  The host's bake operator and constraint solver
are not part of the repository; they are modelled from the specification's
Sampler contract (section 6) and marked as such.
-/

set_option linter.unusedSectionVars false

namespace ArmatureRotate

/-- Abstract model of the rigid-transform algebra the script manipulates:
a group `G` of transforms together with the one-parameter family of
rotations about the vertical (Z) axis, indexed by an angle in degrees.
`rotZ` is required to be a homomorphism from angle addition to transform
composition, which is all the development uses. -/
structure RotModel (G : Type) [Group G] where
  rotZ : ℚ → G
  rotZ_add : ∀ a b : ℚ, rotZ (a + b) = rotZ a * rotZ b
  rotZ_zero : rotZ 0 = 1

variable {G : Type} [Group G]

theorem RotModel.rotZ_neg (M : RotModel G) (a : ℚ) : M.rotZ (-a) = (M.rotZ a)⁻¹ := by
  have h : M.rotZ a * M.rotZ (-a) = 1 := by
    rw [← M.rotZ_add, add_neg_cancel, M.rotZ_zero]
  exact eq_inv_of_mul_eq_one_right h |>.symm ▸ (inv_eq_of_mul_eq_one_right h).symm ▸ rfl

/-- Model of the source's degree-to-radian conversion `math.radians`
(lines 22/93/120).  The model measures every
angle in degrees and lets `RotModel.rotZ` interpret degrees directly, so the
(linear, injective) degree-to-radian conversion is the identity on the angle
parameter.  It is kept as a named function so the embedding of lines 93 and
120 reads like the source. -/
def radians (d : ℚ) : ℚ := d

/-- An Action data-block: frame range (`action.frame_range`, the source reads
both ends through `int(...)`, hence integers here), the set of bone names
that carry keyframes (Blender: one f-curve group per bone), and the keyed
local transform of each bone at each frame. -/
@[ext]
structure ActionData (G : Type) where
  frame_range : ℤ × ℤ
  bones_keyed : List String
  poses : ℤ → String → G

/-- An NLA strip: display name, start frame, and the referenced action id. -/
structure Strip where
  name : String
  frame_start : ℤ
  action : ℕ
deriving DecidableEq

/-- An NLA track: a named slot holding its strips in order. -/
structure Track where
  name : String
  strips : List Strip
deriving DecidableEq

/-- Per-object animation data: the active action (a reference into the action
store) and the NLA track list.  `obj.copy()` duplicates this container, so
copies share the action data-block but own their track lists. -/
structure AnimData where
  action : Option ℕ
  nla_tracks : List Track
deriving DecidableEq

/-- A bone constraint as the script creates them (lines 73-87): type tag,
target object (by name, standing for the object pointer), subtarget bone
name, influence. -/
structure Constraint where
  ctype : String
  target : String
  subtarget : String
  influence : ℚ
deriving DecidableEq

/-- A pose bone: its name and its constraint stack. -/
structure PoseBone where
  name : String
  constraints : List Constraint
deriving DecidableEq

/-- A scene object.  `otype` is the object type tag (`obj.type`, e.g.
"ARMATURE").  `rotation_euler_z` is the Z component of `obj.rotation_euler`
in degrees (see `radians`).  The armature data-block (`obj.data`) carries
only the rest topology, which the model folds into `pose_bones`; its
duplication at lines 46/51 has no further observable effect here. -/
structure Obj where
  name : String
  otype : String
  rotation_euler_z : ℚ
  pose_bones : List PoseBone
  animation_data : Option AnimData
  selected : Bool
deriving DecidableEq

/-- The Blender scene state: linked objects in order, the store of action
data-blocks addressed by id (ids model data-block pointers; `next_action_id`
is the supply of fresh ids), and the name of the active object. -/
structure Scene (G : Type) where
  objects : List Obj
  actions : List (ℕ × ActionData G)
  next_action_id : ℕ
  active_object : String

/-- How one invocation of the script ends: normally, with the error pop-up of
lines 30-38, or with an uncaught Python exception. -/
inductive Outcome where
  | completed
  | popupError (msg : String)
  | uncaughtError (msg : String)
deriving DecidableEq

/-- Result of running the script: the scene as left behind (also on the
error paths) and how the run ended. -/
structure RunResult (G : Type) where
  scene : Scene G
  outcome : Outcome

/-- Look an object up by name (models holding a Python reference to it). -/
def findObj (s : Scene G) (n : String) : Option Obj :=
  s.objects.find? (fun o => o.name == n)

/-- Mutate the object(s) of the given name in place. -/
def updateObj (s : Scene G) (n : String) (f : Obj → Obj) : Scene G :=
  { s with objects := s.objects.map (fun o => if o.name == n then f o else o) }

/-- Linking an object into the collection, `bpy.context.collection.objects.link`
(lines 55-56). -/
def linkObj (s : Scene G) (o : Obj) : Scene G :=
  { s with objects := s.objects ++ [o] }

/-- Dereference an action id in the store. -/
def lookupAction (s : Scene G) (i : ℕ) : Option (ActionData G) :=
  (s.actions.find? (fun p => p.1 == i)).map (fun p => p.2)

/-- Overwrite the action data-block stored under an existing id. -/
def setAction (s : Scene G) (i : ℕ) (a : ActionData G) : Scene G :=
  { s with actions := s.actions.map (fun p => if p.1 == i then (i, a) else p) }

/-- Apply a change to an object's animation data container (no-op when the
object has none; every use in the script is guarded by an earlier read). -/
def withAnim (f : AnimData → AnimData) (o : Obj) : Obj :=
  { o with animation_data := o.animation_data.map f }

/-- Strip creation `track.strips.new` (lines 62, 114): append a strip to the
most recently created track. -/
def addStripLast (st : Strip) (ts : List Track) : List Track :=
  match ts.getLast? with
  | none => ts
  | some t => ts.dropLast ++ [{ t with strips := t.strips ++ [st] }]

/-- The keyed local pose an object's own action gives one bone at one frame
(identity when the object has no action). -/
def ownLocalPose (s : Scene G) (o : Obj) (f : ℤ) (bn : String) : G :=
  match o.animation_data with
  | none => 1
  | some ad =>
    match ad.action with
    | none => 1
    | some i =>
      match lookupAction s i with
      | none => 1
      | some act => act.poses f bn

/-- Modelled from the spec: the world-space transform of one bone of one
object at one frame, as the Skeleton/Pose Provider of section 2 exposes it —
the object's placement (here: its Z rotation) composed with the bone's keyed
local pose.  The provider itself is host code that is not part of this
repository. -/
def objectWorldBone (M : RotModel G) (s : Scene G) (f : ℤ) (objName bn : String) : G :=
  match findObj s objName with
  | none => 1
  | some o => M.rotZ o.rotation_euler_z * ownLocalPose s o f bn

/-- Modelled from the spec: constraint-stack resolution of the Sampler
contract (section 6) — a bone whose stack holds a full-influence
copy-rotation and a full-influence copy-location aimed at the same target
bone has its whole world transform pinned to that bone.  Returns the
(target object, target bone) pair when the stack pins the bone this way. -/
def fullCopyTargets (bone : PoseBone) : Option (String × String) :=
  match bone.constraints.find? (fun c => c.ctype == "COPY_ROTATION" && c.influence == 1),
        bone.constraints.find? (fun c => c.ctype == "COPY_LOCATION" && c.influence == 1) with
  | some cr, some cl =>
    if cr.target == cl.target && cr.subtarget == cl.subtarget then
      some (cr.target, cr.subtarget)
    else none
  | _, _ => none

/-- Modelled from the spec: `Sampler.Resolve` (section 6) for one bone —
honour the active copy relations and return the resolved local-space
transform: the constrained world pose re-expressed relative to the owning
object's placement; an unconstrained bone keeps its own keyed pose. -/
def sampleBoneLocal (M : RotModel G) (s : Scene G) (ob : Obj) (f : ℤ) (bone : PoseBone) : G :=
  match fullCopyTargets bone with
  | some (t, sub) => (M.rotZ ob.rotation_euler_z)⁻¹ * objectWorldBone M s f t sub
  | none => ownLocalPose s ob f bone.name

/-- Modelled from the spec: `bpy.ops.nla.bake` (lines 100-107) on the named
object, per the Sampler/Baker contract of sections 2 and 6 — for the given
frame range it resolves every pose bone's local transform under the active
copy constraints (visual keying) and records the result as plain keyframe
data.  With `use_current_action` the keys are written into the object's
current action when it has one; otherwise a fresh action is created and
assigned.  `clear_constraints` then empties every bone's constraint stack.
The operator is host code that is not part of this repository. -/
def nla_bake (M : RotModel G) (frame_start frame_end : ℤ) (obName : String) (s : Scene G) :
    Scene G :=
  match findObj s obName with
  | none => s
  | some ob =>
    let poses : ℤ → String → G := fun f bn =>
      match ob.pose_bones.find? (fun b => b.name == bn) with
      | some bone => sampleBoneLocal M s ob f bone
      | none => 1
    let act : ActionData G :=
      { frame_range := (frame_start, frame_end),
        bones_keyed := ob.pose_bones.map (fun b => b.name),
        poses := poses }
    let clearCons : Obj → Obj := fun o =>
      { o with pose_bones := o.pose_bones.map (fun b => { b with constraints := [] }) }
    match ob.animation_data with
    | some ad =>
      match ad.action with
      | some i => updateObj (setAction s i act) obName clearCons
      | none =>
        let i := s.next_action_id
        let s' := { s with
          actions := s.actions ++ [(i, act)],
          next_action_id := s.next_action_id + 1 }
        updateObj s' obName
          (fun o => clearCons { o with animation_data := some { action := some i, nla_tracks := [] } })
    | none =>
      let i := s.next_action_id
      let s' := { s with
        actions := s.actions ++ [(i, act)],
        next_action_id := s.next_action_id + 1 }
      updateObj s' obName
        (fun o => clearCons { o with animation_data := some { action := some i, nla_tracks := [] } })

/-- Lines 27-63 of the script: grab the active object, reject non-armatures
with the pop-up, duplicate the armature twice ('Bake', 'Updated'), link both
duplicates, and archive the original action in a first NLA track of
'Updated'.  Returns either an early `RunResult` (pop-up, or the uncaught
`AttributeError` a missing action raises at line 59/62) or the parent
object, the original action's id and data, and the scene so far. -/
def scriptSetup (s : Scene G) : RunResult G ⊕ (Obj × ℕ × ActionData G × Scene G) :=
  match findObj s s.active_object with
  | none => .inl ⟨s, .uncaughtError "AttributeError"⟩
  | some parent_armature_obj =>
    if parent_armature_obj.otype ≠ "ARMATURE" then
      .inl ⟨s, .popupError "The selected object is not an armature."⟩
    else
      -- lines 44-52: duplicate the armature object and its data, twice
      let bake_armature_obj : Obj := { parent_armature_obj with name := "Bake" }
      let updated_armature_obj : Obj := { parent_armature_obj with name := "Updated" }
      -- lines 55-56
      let s2 := linkObj (linkObj s bake_armature_obj) updated_armature_obj
      -- line 59: original_action = updated_armature_obj.animation_data.action
      match updated_armature_obj.animation_data with
      | none => .inl ⟨s2, .uncaughtError "AttributeError"⟩
      | some ad =>
        -- lines 60-61: track = nla_tracks.new(); track.name = parent.name + '-original'
        let s3 := updateObj s2 "Updated" (withAnim (fun a =>
          { a with nla_tracks :=
              a.nla_tracks ++ [⟨parent_armature_obj.name ++ "-original", []⟩] }))
        match ad.action with
        | none => .inl ⟨s3, .uncaughtError "AttributeError"⟩
        | some original_action_id =>
          match lookupAction s3 original_action_id with
          | none => .inl ⟨s3, .uncaughtError "ReferenceError"⟩
          | some original_action =>
            -- lines 62-63: strip = track.strips.new('original', int(frame_range[0]), action)
            let s4 := updateObj s3 "Updated" (withAnim (fun a =>
              { a with nla_tracks :=
                  (addStripLast
                    { name := "original", frame_start := original_action.frame_range.1,
                      action := original_action_id }
                    a.nla_tracks) }))
            .inr (parent_armature_obj, original_action_id, original_action, s4)

/-- Lines 70-97 of the script: give every 'Bake' pose bone the full-influence
copy-rotation and copy-location pair aimed at the parent's same-named bone,
clear 'Bake''s animation data, rotate the parent by the configured angle
about Z, and select 'Bake' (the pose-mode switch has no observable effect in
the model).  The returned scene is exactly the state the bake operator
runs in. -/
def restOfSetup (rotation : ℚ) (parent_armature_obj : Obj) (s : Scene G) : Scene G :=
  -- lines 70-87
  let sA := updateObj s "Bake" (fun o =>
    { o with pose_bones := o.pose_bones.map (fun bone =>
        { bone with constraints := bone.constraints ++
            [{ ctype := "COPY_ROTATION", target := parent_armature_obj.name,
               subtarget := bone.name, influence := 1 },
             { ctype := "COPY_LOCATION", target := parent_armature_obj.name,
               subtarget := bone.name, influence := 1 }] }) })
  -- line 90: bake_armature_obj.animation_data_clear()
  let sB := updateObj sA "Bake" (fun o => { o with animation_data := none })
  -- line 93: parent_armature_obj.rotation_euler.z += radians(ROTATION)
  let sC := updateObj sB parent_armature_obj.name (fun o =>
    { o with rotation_euler_z := o.rotation_euler_z + radians rotation })
  -- lines 96-97
  updateObj sC "Bake" (fun o => { o with selected := true })

/-- Lines 109-128 of the script: read the baked action off 'Bake', archive it
in a second NLA track of 'Updated', drop 'Updated''s active action, rotate
the parent back, delete 'Bake' (deselect all, select it, delete selected)
and rename 'Updated'. -/
def finishScript (rotation : ℚ) (parent_armature_obj : Obj) (s : Scene G) : RunResult G :=
  -- line 109: rotated_action = bake_armature_obj.animation_data.action
  match findObj s "Bake" with
  | none => ⟨s, .uncaughtError "AttributeError"⟩
  | some bake_armature_obj =>
    match bake_armature_obj.animation_data with
    | none => ⟨s, .uncaughtError "AttributeError"⟩
    | some ad =>
      match ad.action with
      | none => ⟨s, .uncaughtError "AttributeError"⟩
      | some rotated_action_id =>
        match lookupAction s rotated_action_id with
        | none => ⟨s, .uncaughtError "ReferenceError"⟩
        | some rotated_action =>
          -- lines 112-115
          let s1 := updateObj s "Updated" (withAnim (fun a =>
            { a with nla_tracks :=
                a.nla_tracks ++ [⟨parent_armature_obj.name ++ "-" ++ toString rotation, []⟩] }))
          let s2 := updateObj s1 "Updated" (withAnim (fun a =>
            { a with nla_tracks :=
                (addStripLast
                  { name := toString rotation, frame_start := rotated_action.frame_range.1,
                    action := rotated_action_id }
                  a.nla_tracks) }))
          -- line 116: updated_armature_obj.animation_data.action = None
          let s3 := updateObj s2 "Updated" (withAnim (fun a => { a with action := none }))
          -- lines 119-120: back to object mode; undo the parent rotation
          let s4 := updateObj s3 parent_armature_obj.name (fun o =>
            { o with rotation_euler_z := o.rotation_euler_z + radians (-rotation) })
          -- lines 123-125: deselect all, select 'Bake', delete selected
          let s5 : Scene G := { s4 with
            objects := s4.objects.map (fun o => { o with selected := false }) }
          let s6 := updateObj s5 "Bake" (fun o => { o with selected := true })
          let s7 : Scene G := { s6 with
            objects := s6.objects.filter (fun o => !o.selected) }
          -- line 128
          let s8 := updateObj s7 "Updated" (fun o =>
            { o with name := parent_armature_obj.name ++ "-updated" })
          ⟨s8, .completed⟩

/-- The whole script, lines 21-128, over an abstract transform model `M` and
with the configured `ROTATION` as the parameter `rotation` (the source
default is 180). -/
def runScript (M : RotModel G) (rotation : ℚ) (s : Scene G) : RunResult G :=
  match scriptSetup s with
  | .inl r => r
  | .inr (parent_armature_obj, _, original_action, s4) =>
    -- line 67: animation_length = int(parent.animation_data.action.frame_range[1]);
    -- the duplicates share the parent's action reference, so this is the
    -- already-extracted original action's upper frame bound.
    let animation_length := original_action.frame_range.2
    finishScript rotation parent_armature_obj
      (nla_bake M 1 animation_length "Bake" (restOfSetup rotation parent_armature_obj s4))

/-- Observation point: the scene exactly as handed to the bake operator
(`none` when the run never reaches the bake). -/
def duringBakeScene (rotation : ℚ) (s : Scene G) : Option (Scene G) :=
  match scriptSetup s with
  | .inl _ => none
  | .inr (parent_armature_obj, _, _, s4) =>
    some (restOfSetup rotation parent_armature_obj s4)

/-! ### Closed forms of the script's outputs

These definitions name the values the script provably produces; the stage
lemmas below show the run equals them. -/

/-- The action the bake writes for the 'Bake' armature: frame range
`[1, f1]` where `f1` is the original action's upper frame bound, keys for
exactly the bones of the armature, and, for each such bone, the original
local pose composed with the placement rotation (the parent is rotated by
`rotation` while 'Bake' stays at the shared baseline placement, so the
recorded local pose picks up `rotZ rotation` on the left). -/
def rotatedAction (M : RotModel G) (rotation : ℚ) (parent : Obj) (act : ActionData G) :
    ActionData G :=
  { frame_range := (1, act.frame_range.2),
    bones_keyed := parent.pose_bones.map (fun b => b.name),
    poses := fun f bn =>
      match parent.pose_bones.find? (fun b => b.name == bn) with
      | some _ => M.rotZ (radians rotation) * act.poses f bn
      | none => 1 }

/-- The constraint pair the script stacks onto one 'Bake' bone (lines
70-87). -/
def copyConstraintPair (parentName boneName : String) : List Constraint :=
  [{ ctype := "COPY_ROTATION", target := parentName, subtarget := boneName, influence := 1 },
   { ctype := "COPY_LOCATION", target := parentName, subtarget := boneName, influence := 1 }]

/-- The 'Updated' armature as the script leaves it: renamed, deselected,
active action dropped, and the two archive tracks appended after whatever
tracks the parent already had. -/
def finalUpdated (rotation : ℚ) (parent : Obj) (aid nid : ℕ) (ptracks : List Track)
    (act : ActionData G) : Obj :=
  { parent with
      name := parent.name ++ "-updated",
      selected := false,
      animation_data := some
        { action := none,
          nla_tracks := ptracks ++
            [{ name := parent.name ++ "-original",
               strips := [{ name := "original", frame_start := act.frame_range.1,
                            action := aid }] },
             { name := parent.name ++ "-" ++ toString rotation,
               strips := [{ name := toString rotation, frame_start := 1,
                            action := nid }] }] } }

/-- The recorded-local formula asserted by the specification: the claim says
the target instance sits at placement angle `theta` and the recorded local
transforms are the source's pose composed with the INVERSE of the placement
rotation.  Stated from the spec's words, for comparison against what the
code actually records. -/
def specClaimRecordedLocal (M : RotModel G) (theta : ℚ) (sourceLocal : G) : G :=
  (M.rotZ theta)⁻¹ * sourceLocal

/-! ### Basic lemmas about the scene helpers -/

theorem findObj_name_eq {s : Scene G} {n : String} {o : Obj}
    (h : findObj s n = some o) : o.name = n := by
  have := List.find?_some h
  simpa using this

theorem findObj_mem {s : Scene G} {n : String} {o : Obj}
    (h : findObj s n = some o) : o ∈ s.objects :=
  List.mem_of_find?_eq_some h

/-- Finding by name commutes with any name-preserving per-object map. -/
theorem find?_name_map (l : List Obj) (f : Obj → Obj) (n : String)
    (hf : ∀ o, (f o).name = o.name) :
    (l.map f).find? (fun o => o.name == n) = (l.find? (fun o => o.name == n)).map f := by
  have hp : ((fun o : Obj => o.name == n) ∘ f) = (fun o : Obj => o.name == n) := by
    funext o
    simp [Function.comp, hf]
  rw [List.find?_map, hp]

/-- Updating objects of a name that does not occur in a list leaves the list
unchanged. -/
theorem map_upd_fresh (l : List Obj) (n : String) (f : Obj → Obj)
    (h : ∀ o ∈ l, o.name ≠ n) :
    l.map (fun o => if o.name == n then f o else o) = l := by
  have : ∀ o ∈ l, (if o.name == n then f o else o) = o := by
    intro o ho
    have : (o.name == n) = false := by
      simpa using h o ho
    simp [this]
  rw [List.map_congr_left this]
  simp

/-! ### Stage lemmas: the run in closed form

The script is settled by computing each stage's result explicitly under the
preconditions of a well-formed invocation: the active object is an armature
with an action, the fresh object names 'Bake' and 'Updated' are unused, every
stored action id is below the fresh-id supply, and the armature's bones carry
no pre-existing constraints. -/

theorem lookupAction_updateObj (s : Scene G) (n : String) (f : Obj → Obj) (i : ℕ) :
    lookupAction (updateObj s n f) i = lookupAction s i := rfl

theorem lookupAction_linkObj (s : Scene G) (o : Obj) (i : ℕ) :
    lookupAction (linkObj s o) i = lookupAction s i := rfl

/-- The 'Bake' duplicate as first created (lines 44-47). -/
def bakeCopy (parent : Obj) : Obj := { parent with name := "Bake" }

/-- The archive track wrapping the original action (lines 60-63): named after
the parent, holding the single strip "original" that starts at the original
action's own first frame `f0` and references the original action id. -/
def originalTrack (parentName : String) (f0 : ℤ) (aid : ℕ) : Track :=
  { name := parentName ++ "-original",
    strips := [{ name := "original", frame_start := f0, action := aid }] }

/-- The archive track wrapping the rebaked action (lines 112-115): named
after the parent and the rotation amount, holding the single strip named
after the rotation that starts at the rebaked action's first frame (1) and
references the fresh action id. -/
def rotatedTrack (parentName : String) (rotation : ℚ) (nid : ℕ) : Track :=
  { name := parentName ++ "-" ++ toString rotation,
    strips := [{ name := toString rotation, frame_start := 1, action := nid }] }

/-- The 'Updated' duplicate after the original action has been archived
(state at line 63). -/
def updatedAfterSetup (parent : Obj) (aid : ℕ) (ptracks : List Track) (f0 : ℤ) : Obj :=
  { parent with
      name := "Updated",
      animation_data := some
        { action := some aid,
          nla_tracks := ptracks ++ [originalTrack parent.name f0 aid] } }

theorem find?_name_eq_none (l : List Obj) (n : String) (h : ∀ o ∈ l, o.name ≠ n) :
    l.find? (fun o => o.name == n) = none := by
  rw [List.find?_eq_none]
  intro o ho
  simpa using h o ho

theorem fresh_map_of_name_pres (l : List Obj) (f : Obj → Obj) (n : String)
    (hf : ∀ o, (f o).name = o.name) (h : ∀ o ∈ l, o.name ≠ n) :
    ∀ o ∈ l.map f, o.name ≠ n := by
  intro o ho
  rcases List.mem_map.mp ho with ⟨x, hx, rfl⟩
  rw [hf]
  exact h x hx

/-- The per-object effect of line 93 / line 120: add an angle to the Z
rotation of the object(s) with the given name. -/
def rotateByName (n : String) (rotation : ℚ) : Obj → Obj := fun o =>
  if o.name == n then { o with rotation_euler_z := o.rotation_euler_z + radians rotation }
  else o

theorem rotateByName_name (n : String) (rotation : ℚ) (o : Obj) :
    (rotateByName n rotation o).name = o.name := by
  unfold rotateByName
  split <;> rfl

theorem scriptSetup_ok (s : Scene G) (parent : Obj) (aid : ℕ) (ptracks : List Track)
    (act : ActionData G)
    (hfind : findObj s s.active_object = some parent)
    (htype : parent.otype = "ARMATURE")
    (hanim : parent.animation_data = some { action := some aid, nla_tracks := ptracks })
    (hact : lookupAction s aid = some act)
    (hfreshU : ∀ o ∈ s.objects, o.name ≠ "Updated") :
    scriptSetup s = .inr (parent, aid, act,
      { s with objects :=
          (s.objects ++
            [bakeCopy parent, updatedAfterSetup parent aid ptracks act.frame_range.1]) }) := by
  simp only [lookupAction] at hact
  have hU : ∀ f : Obj → Obj,
      s.objects.map (fun o => if o.name == "Updated" then f o else o) = s.objects :=
    fun f => map_upd_fresh s.objects "Updated" f hfreshU
  simp only [scriptSetup, hfind, htype]
  simp +decide only [updateObj, linkObj, withAnim, lookupAction, addStripLast, hanim, hact,
    htype, List.map_append, List.map_cons, List.map_nil, hU, List.getLast?_concat,
    List.dropLast_concat, bakeCopy, updatedAfterSetup, originalTrack, if_true, if_false,
    Option.map_some', List.append_assoc, List.singleton_append]
  try rfl

/-- The 'Bake' duplicate as handed to the bake operator (state at line 97):
every bone carries the copy-constraint pair aimed at the parent, the
animation data has been cleared, and the object is selected.  Its placement
(in particular `rotation_euler_z`) is still the parent's baseline. -/
def bakePreBake (parent : Obj) : Obj :=
  { parent with
      name := "Bake",
      pose_bones := parent.pose_bones.map (fun bone =>
        { bone with constraints := bone.constraints ++ copyConstraintPair parent.name bone.name }),
      animation_data := none,
      selected := true }

theorem restOfSetup_ok (rotation : ℚ) (s : Scene G) (parent : Obj) (aid : ℕ)
    (ptracks : List Track) (f0 : ℤ)
    (hB : ∀ o ∈ s.objects, o.name ≠ "Bake")
    (hU : ∀ o ∈ s.objects, o.name ≠ "Updated")
    (hpB : parent.name ≠ "Bake")
    (hpU : parent.name ≠ "Updated") :
    restOfSetup rotation parent
        { s with objects :=
            (s.objects ++ [bakeCopy parent, updatedAfterSetup parent aid ptracks f0]) } =
      { s with objects :=
          (s.objects.map (rotateByName parent.name rotation) ++
            [bakePreBake parent, updatedAfterSetup parent aid ptracks f0]) } := by
  have hBm : ∀ f : Obj → Obj,
      s.objects.map (fun o => if o.name == "Bake" then f o else o) = s.objects :=
    fun f => map_upd_fresh s.objects "Bake" f hB
  have hBmm : ∀ f : Obj → Obj,
      (s.objects.map (fun o =>
          if o.name == parent.name then
            { o with rotation_euler_z := o.rotation_euler_z + radians rotation }
          else o)).map
          (fun o => if o.name == "Bake" then f o else o)
        = s.objects.map (fun o =>
            if o.name == parent.name then
              { o with rotation_euler_z := o.rotation_euler_z + radians rotation }
            else o) := by
    intro f
    refine map_upd_fresh _ "Bake" f ?_
    refine fresh_map_of_name_pres s.objects _ "Bake" ?_ hB
    intro o
    dsimp only
    split <;> rfl
  have hpB1 : (("Bake" : String) == parent.name) = false := by
    rw [beq_eq_false_iff_ne]
    exact Ne.symm hpB
  have hpU1 : (("Updated" : String) == parent.name) = false := by
    rw [beq_eq_false_iff_ne]
    exact Ne.symm hpU
  simp +decide only [restOfSetup, updateObj, List.map_append, List.map_cons,
    List.map_nil, hBm, hBmm, hpB1, hpU1, if_true, if_false, Bool.false_eq_true,
    bakeCopy, updatedAfterSetup, bakePreBake, copyConstraintPair, originalTrack]
  try rfl

/-- The 'Bake' duplicate right after the bake operator returns (state at
line 107): constraints cleared, fresh baked action assigned, bones back to
the parent's (constraint-free, by precondition) bone list. -/
def bakedBake (parent : Obj) (nid : ℕ) : Obj :=
  { parent with
      name := "Bake",
      animation_data := some { action := some nid, nla_tracks := [] },
      selected := true }

theorem bakePreBake_name (parent : Obj) : (bakePreBake parent).name = "Bake" := rfl

theorem bakePreBake_otype (parent : Obj) : (bakePreBake parent).otype = parent.otype := rfl

theorem bakePreBake_rotation_euler_z (parent : Obj) :
    (bakePreBake parent).rotation_euler_z = parent.rotation_euler_z := rfl

theorem bakePreBake_pose_bones (parent : Obj) :
    (bakePreBake parent).pose_bones = parent.pose_bones.map (fun bone =>
      { bone with constraints := bone.constraints ++ copyConstraintPair parent.name bone.name }) :=
  rfl

theorem bakePreBake_animation_data (parent : Obj) :
    (bakePreBake parent).animation_data = none := rfl

theorem bakePreBake_selected (parent : Obj) : (bakePreBake parent).selected = true := rfl

theorem updatedAfterSetup_name (parent : Obj) (aid : ℕ) (ptracks : List Track) (f0 : ℤ) :
    (updatedAfterSetup parent aid ptracks f0).name = "Updated" := rfl

theorem nla_bake_ok (M : RotModel G) (rotation : ℚ) (s : Scene G) (parent : Obj) (aid : ℕ)
    (ptracks : List Track) (act : ActionData G) (f0 : ℤ)
    (hB : ∀ o ∈ s.objects, o.name ≠ "Bake")
    (hfind : findObj s parent.name = some parent)
    (hanim : parent.animation_data = some { action := some aid, nla_tracks := ptracks })
    (hact : lookupAction s aid = some act)
    (hbones : ∀ b ∈ parent.pose_bones, b.constraints = []) :
    nla_bake M 1 act.frame_range.2 "Bake"
        { s with objects :=
            (s.objects.map (rotateByName parent.name rotation) ++
              [bakePreBake parent, updatedAfterSetup parent aid ptracks f0]) } =
      { s with
          objects :=
            (s.objects.map (rotateByName parent.name rotation) ++
              [bakedBake parent s.next_action_id, updatedAfterSetup parent aid ptracks f0]),
          actions := (s.actions ++ [(s.next_action_id, rotatedAction M rotation parent act)]),
          next_action_id := s.next_action_id + 1 } := by
  have hnamepres : ∀ o : Obj, (rotateByName parent.name rotation o).name = o.name :=
    rotateByName_name parent.name rotation
  have hprefixB : ∀ o ∈ s.objects.map (rotateByName parent.name rotation), o.name ≠ "Bake" :=
    fresh_map_of_name_pres s.objects _ "Bake" hnamepres hB
  simp only [lookupAction] at hact
  set sPre : Scene G :=
    { s with objects :=
        (s.objects.map (rotateByName parent.name rotation) ++
          [bakePreBake parent, updatedAfterSetup parent aid ptracks f0]) } with hsPre
  have hfd : findObj sPre "Bake" = some (bakePreBake parent) := by
    rw [hsPre]
    simp +decide only [findObj, List.find?_append, find?_name_eq_none _ "Bake" hprefixB,
      Option.none_or, List.find?_cons, bakePreBake, if_true, if_false]
    rfl
  have hBmm : ∀ f : Obj → Obj,
      (s.objects.map (rotateByName parent.name rotation)).map
          (fun o => if o.name == "Bake" then f o else o)
        = s.objects.map (rotateByName parent.name rotation) :=
    fun f => map_upd_fresh _ "Bake" f hprefixB
  have hclear :
      ((parent.pose_bones.map (fun bone =>
          { bone with constraints := bone.constraints ++ copyConstraintPair parent.name bone.name })).map
        (fun b => { b with constraints := ([] : List Constraint) })) = parent.pose_bones := by
    rw [List.map_map]
    have h : ∀ b ∈ parent.pose_bones,
        ((fun b : PoseBone => ({ b with constraints := ([] : List Constraint) } : PoseBone)) ∘
          (fun bone : PoseBone =>
            { bone with constraints := bone.constraints ++ copyConstraintPair parent.name bone.name })) b
          = b := by
      intro b hb
      have hc := hbones b hb
      cases b with
      | mk bname bcons =>
        simp only [Function.comp]
        simp_all
    rw [List.map_congr_left h]
    simp
  have hkeys : ((parent.pose_bones.map (fun bone =>
      { bone with constraints := bone.constraints ++ copyConstraintPair parent.name bone.name })).map
        (fun b => b.name)) = parent.pose_bones.map (fun b => b.name) := by
    rw [List.map_map]
    rfl
  have hposes : (fun (f : ℤ) (bn : String) =>
      match (parent.pose_bones.map (fun bone =>
          { bone with constraints := bone.constraints ++ copyConstraintPair parent.name bone.name })).find?
          (fun b => b.name == bn) with
      | some bone => sampleBoneLocal M sPre (bakePreBake parent) f bone
      | none => (1 : G))
      = (rotatedAction M rotation parent act).poses := by
    funext f bn
    rw [List.find?_map]
    have hcomp : ((fun (b : PoseBone) => b.name == bn) ∘ (fun bone : PoseBone =>
        { bone with constraints := bone.constraints ++ copyConstraintPair parent.name bone.name }))
        = (fun b : PoseBone => b.name == bn) := rfl
    rw [hcomp]
    cases hfd2 : parent.pose_bones.find? (fun b => b.name == bn) with
    | none =>
      simp only [rotatedAction, hfd2, Option.map_none']
    | some bone =>
      have hmem := List.mem_of_find?_eq_some hfd2
      have hbn : bone.name = bn := by
        simpa using List.find?_some hfd2
      have hcons := hbones bone hmem
      have hworld : objectWorldBone M sPre f parent.name bone.name
          = M.rotZ (parent.rotation_euler_z + radians rotation) * act.poses f bn := by
        have hfp : findObj sPre parent.name
            = some { parent with
                rotation_euler_z := parent.rotation_euler_z + radians rotation } := by
          rw [hsPre]
          simp only [findObj, List.find?_append]
          rw [find?_name_map s.objects _ parent.name hnamepres]
          have : s.objects.find? (fun o => o.name == parent.name) = some parent := hfind
          rw [this]
          simp only [Option.map_some', rotateByName, beq_self_eq_true, if_true]
          rfl
        rw [objectWorldBone, hfp]
        simp only [ownLocalPose, hanim]
        have hla : sPre.actions.find? (fun p => p.1 == aid) = s.actions.find? (fun p => p.1 == aid) := by
          rw [hsPre]
        simp only [lookupAction, hla, hact, Option.map_some', hbn]
      have hfct : fullCopyTargets
          { bone with constraints := bone.constraints ++ copyConstraintPair parent.name bone.name }
          = some (parent.name, bone.name) := by
        simp [fullCopyTargets, copyConstraintPair, hcons]
      have hsample : sampleBoneLocal M sPre (bakePreBake parent) f
          { bone with constraints := bone.constraints ++ copyConstraintPair parent.name bone.name }
          = M.rotZ (radians rotation) * act.poses f bn := by
        simp only [sampleBoneLocal, hfct, bakePreBake]
        rw [hworld, M.rotZ_add, mul_assoc]
        exact inv_mul_cancel_left _ _
      simp only [Option.map_some', hsample, rotatedAction, hfd2]
  have hsa : sPre.actions = s.actions := by rw [hsPre]
  have hsn : sPre.next_action_id = s.next_action_id := by rw [hsPre]
  have hsv : sPre.active_object = s.active_object := by rw [hsPre]
  have hso : sPre.objects
      = s.objects.map (rotateByName parent.name rotation) ++
        [bakePreBake parent, updatedAfterSetup parent aid ptracks f0] := by rw [hsPre]
  simp +decide only [nla_bake, hfd, bakePreBake_animation_data, hsa, hsn, hsv, hso, updateObj,
    List.map_append, List.map_cons, List.map_nil, hBmm, bakePreBake_name, bakePreBake_otype,
    bakePreBake_rotation_euler_z, bakePreBake_pose_bones, bakePreBake_selected,
    updatedAfterSetup_name, if_true, if_false, Bool.false_eq_true, hclear, hkeys, hposes,
    bakedBake]
  try rfl

theorem bakedBake_name (parent : Obj) (nid : ℕ) : (bakedBake parent nid).name = "Bake" := rfl

theorem bakedBake_otype (parent : Obj) (nid : ℕ) :
    (bakedBake parent nid).otype = parent.otype := rfl

theorem bakedBake_rotation_euler_z (parent : Obj) (nid : ℕ) :
    (bakedBake parent nid).rotation_euler_z = parent.rotation_euler_z := rfl

theorem bakedBake_pose_bones (parent : Obj) (nid : ℕ) :
    (bakedBake parent nid).pose_bones = parent.pose_bones := rfl

theorem bakedBake_animation_data (parent : Obj) (nid : ℕ) :
    (bakedBake parent nid).animation_data = some { action := some nid, nla_tracks := [] } := rfl

theorem bakedBake_selected (parent : Obj) (nid : ℕ) : (bakedBake parent nid).selected = true :=
  rfl

theorem updatedAfterSetup_animation_data (parent : Obj) (aid : ℕ) (ptracks : List Track)
    (f0 : ℤ) :
    (updatedAfterSetup parent aid ptracks f0).animation_data
      = some { action := some aid, nla_tracks := ptracks ++ [originalTrack parent.name f0 aid] } :=
  rfl

theorem updatedAfterSetup_otype (parent : Obj) (aid : ℕ) (ptracks : List Track) (f0 : ℤ) :
    (updatedAfterSetup parent aid ptracks f0).otype = parent.otype := rfl

theorem updatedAfterSetup_rotation_euler_z (parent : Obj) (aid : ℕ) (ptracks : List Track)
    (f0 : ℤ) :
    (updatedAfterSetup parent aid ptracks f0).rotation_euler_z = parent.rotation_euler_z := rfl

theorem updatedAfterSetup_pose_bones (parent : Obj) (aid : ℕ) (ptracks : List Track) (f0 : ℤ) :
    (updatedAfterSetup parent aid ptracks f0).pose_bones = parent.pose_bones := rfl

theorem updatedAfterSetup_selected (parent : Obj) (aid : ℕ) (ptracks : List Track) (f0 : ℤ) :
    (updatedAfterSetup parent aid ptracks f0).selected = parent.selected := rfl

theorem rotatedAction_frame_range (M : RotModel G) (rotation : ℚ) (parent : Obj)
    (act : ActionData G) :
    (rotatedAction M rotation parent act).frame_range = (1, act.frame_range.2) := rfl

theorem finishScript_ok (M : RotModel G) (rotation : ℚ) (s : Scene G) (parent : Obj)
    (aid : ℕ) (ptracks : List Track) (act : ActionData G)
    (hB : ∀ o ∈ s.objects, o.name ≠ "Bake")
    (hU : ∀ o ∈ s.objects, o.name ≠ "Updated")
    (hpB : parent.name ≠ "Bake")
    (hpU : parent.name ≠ "Updated")
    (hids : ∀ p ∈ s.actions, p.1 < s.next_action_id) :
    finishScript rotation parent
        { s with
            objects :=
              (s.objects.map (rotateByName parent.name rotation) ++
                [bakedBake parent s.next_action_id,
                 updatedAfterSetup parent aid ptracks act.frame_range.1]),
            actions := (s.actions ++ [(s.next_action_id, rotatedAction M rotation parent act)]),
            next_action_id := s.next_action_id + 1 } =
      { scene :=
          { s with
              objects :=
                (s.objects.map (fun o => { o with selected := false }) ++
                  [finalUpdated rotation parent aid s.next_action_id ptracks act]),
              actions := (s.actions ++ [(s.next_action_id, rotatedAction M rotation parent act)]),
              next_action_id := s.next_action_id + 1 },
        outcome := .completed } := by
  have hnp1 : ∀ o : Obj, (rotateByName parent.name rotation o).name = o.name :=
    rotateByName_name parent.name rotation
  have hP1B : ∀ o ∈ s.objects.map (rotateByName parent.name rotation), o.name ≠ "Bake" :=
    fresh_map_of_name_pres s.objects _ "Bake" hnp1 hB
  have hP1U : ∀ o ∈ s.objects.map (rotateByName parent.name rotation), o.name ≠ "Updated" :=
    fresh_map_of_name_pres s.objects _ "Updated" hnp1 hU
  have hpB1 : (("Bake" : String) == parent.name) = false := by
    rw [beq_eq_false_iff_ne]
    exact Ne.symm hpB
  have hpU1 : (("Updated" : String) == parent.name) = false := by
    rw [beq_eq_false_iff_ne]
    exact Ne.symm hpU
  set sB : Scene G :=
    { s with
        objects :=
          (s.objects.map (rotateByName parent.name rotation) ++
            [bakedBake parent s.next_action_id,
             updatedAfterSetup parent aid ptracks act.frame_range.1]),
        actions := (s.actions ++ [(s.next_action_id, rotatedAction M rotation parent act)]),
        next_action_id := s.next_action_id + 1 } with hsB
  have hfdB : findObj sB "Bake" = some (bakedBake parent s.next_action_id) := by
    rw [hsB]
    simp +decide only [findObj, List.find?_append, find?_name_eq_none _ "Bake" hP1B,
      Option.none_or, List.find?_cons, bakedBake_name, if_true, if_false]
    rfl
  have hlr : lookupAction sB s.next_action_id
      = some (rotatedAction M rotation parent act) := by
    rw [hsB]
    have hleft : s.actions.find? (fun p => p.1 == s.next_action_id) = none := by
      rw [List.find?_eq_none]
      intro p hp
      have := hids p hp
      simp only [beq_iff_eq]
      omega
    simp only [lookupAction, List.find?_append, hleft, Option.none_or, List.find?_cons,
      beq_self_eq_true, Option.map_some']
  have hU1 : ∀ f : Obj → Obj,
      (s.objects.map (rotateByName parent.name rotation)).map
          (fun o => if o.name == "Updated" then f o else o)
        = s.objects.map (rotateByName parent.name rotation) :=
    fun f => map_upd_fresh _ "Updated" f hP1U
  have hcancel :
      ((s.objects.map (rotateByName parent.name rotation)).map
          (fun o =>
            if o.name == parent.name then
              { o with rotation_euler_z := o.rotation_euler_z + radians (-rotation) }
            else o)).map (fun o => { o with selected := false })
        = s.objects.map (fun o => { o with selected := false }) := by
    rw [List.map_map, List.map_map]
    refine List.map_congr_left ?_
    intro o ho
    simp only [Function.comp, rotateByName, radians]
    by_cases h : o.name = parent.name
    · simp [h]
    · simp [h]
  have hdeselB : ∀ f : Obj → Obj,
      (s.objects.map (fun o => ({ o with selected := false } : Obj))).map
          (fun o => if o.name == "Bake" then f o else o)
        = s.objects.map (fun o => ({ o with selected := false } : Obj)) :=
    fun f => map_upd_fresh _ "Bake" f
      (fresh_map_of_name_pres s.objects _ "Bake" (fun o => rfl) hB)
  have hdeselU : ∀ f : Obj → Obj,
      (s.objects.map (fun o => ({ o with selected := false } : Obj))).map
          (fun o => if o.name == "Updated" then f o else o)
        = s.objects.map (fun o => ({ o with selected := false } : Obj)) :=
    fun f => map_upd_fresh _ "Updated" f
      (fresh_map_of_name_pres s.objects _ "Updated" (fun o => rfl) hU)
  have hfil : (s.objects.map (fun o => ({ o with selected := false } : Obj))).filter
      (fun o => !o.selected) = s.objects.map (fun o => ({ o with selected := false } : Obj)) := by
    rw [List.filter_eq_self]
    intro o ho
    rcases List.mem_map.mp ho with ⟨x, hx, rfl⟩
    rfl
  have hassoc : ptracks ++
      [({ name := parent.name ++ "-original",
          strips := [{ name := "original", frame_start := act.frame_range.1,
                       action := aid }] } : Track),
       { name := parent.name ++ "-" ++ toString rotation, strips := [] }]
      = (ptracks ++
          [({ name := parent.name ++ "-original",
              strips := [{ name := "original", frame_start := act.frame_range.1,
                           action := aid }] } : Track)]) ++
        [({ name := parent.name ++ "-" ++ toString rotation, strips := [] } : Track)] := by
    simp
  have hlast2 : (ptracks ++
      [({ name := parent.name ++ "-original",
          strips := [{ name := "original", frame_start := act.frame_range.1,
                       action := aid }] } : Track),
       { name := parent.name ++ "-" ++ toString rotation, strips := [] }]).getLast?
      = some { name := parent.name ++ "-" ++ toString rotation, strips := [] } := by
    rw [hassoc]
    exact List.getLast?_concat _
  have hdrop2 : (ptracks ++
      [({ name := parent.name ++ "-original",
          strips := [{ name := "original", frame_start := act.frame_range.1,
                       action := aid }] } : Track),
       { name := parent.name ++ "-" ++ toString rotation, strips := [] }]).dropLast
      = ptracks ++
        [({ name := parent.name ++ "-original",
            strips := [{ name := "original", frame_start := act.frame_range.1,
                         action := aid }] } : Track)] := by
    rw [hassoc]
    exact List.dropLast_concat
  have hsa : sB.actions = s.actions ++ [(s.next_action_id, rotatedAction M rotation parent act)] := by
    rw [hsB]
  have hsn : sB.next_action_id = s.next_action_id + 1 := by rw [hsB]
  have hsv : sB.active_object = s.active_object := by rw [hsB]
  have hso : sB.objects
      = s.objects.map (rotateByName parent.name rotation) ++
        [bakedBake parent s.next_action_id,
         updatedAfterSetup parent aid ptracks act.frame_range.1] := by rw [hsB]
  simp +decide only [finishScript, hfdB, bakedBake_animation_data, hlr, hsa, hsn, hsv, hso,
    updateObj, withAnim, List.map_append, List.map_cons, List.map_nil, hU1, hcancel, hdeselB,
    hdeselU, hfil, bakedBake_name, bakedBake_otype, bakedBake_rotation_euler_z,
    bakedBake_pose_bones, bakedBake_selected, updatedAfterSetup_name,
    updatedAfterSetup_animation_data, updatedAfterSetup_otype,
    updatedAfterSetup_rotation_euler_z, updatedAfterSetup_pose_bones, updatedAfterSetup_selected,
    rotatedAction_frame_range, Option.map_some', hpB1, hpU1,
    if_true, if_false, Bool.false_eq_true, addStripLast, hlast2, hdrop2, List.getLast?_concat,
    List.dropLast_concat, List.filter_append, List.filter_cons, List.filter_nil,
    Bool.not_true, Bool.not_false, finalUpdated, originalTrack, List.append_assoc,
    List.singleton_append, List.cons_append, List.nil_append]
  try rfl

/-- Master description of a successful run: under the well-formedness
preconditions, the script completes and the final scene is exactly: every
pre-existing object deselected but otherwise untouched (the parent's
temporary rotation has cancelled), the renamed 'Updated' armature appended
with the two archive tracks, the baked action appended to the store under
the fresh id, and the 'Bake' armature gone. -/
theorem runScript_ok (M : RotModel G) (rotation : ℚ) (s : Scene G) (parent : Obj)
    (aid : ℕ) (ptracks : List Track) (act : ActionData G)
    (hfind : findObj s s.active_object = some parent)
    (htype : parent.otype = "ARMATURE")
    (hanim : parent.animation_data = some { action := some aid, nla_tracks := ptracks })
    (hact : lookupAction s aid = some act)
    (hids : ∀ p ∈ s.actions, p.1 < s.next_action_id)
    (hB : ∀ o ∈ s.objects, o.name ≠ "Bake")
    (hU : ∀ o ∈ s.objects, o.name ≠ "Updated")
    (hbones : ∀ b ∈ parent.pose_bones, b.constraints = []) :
    runScript M rotation s =
      { scene :=
          { s with
              objects :=
                (s.objects.map (fun o => { o with selected := false }) ++
                  [finalUpdated rotation parent aid s.next_action_id ptracks act]),
              actions :=
                (s.actions ++ [(s.next_action_id, rotatedAction M rotation parent act)]),
              next_action_id := s.next_action_id + 1 },
        outcome := .completed } := by
  have hpname : parent.name = s.active_object := findObj_name_eq hfind
  have hmem : parent ∈ s.objects := findObj_mem hfind
  have hpB : parent.name ≠ "Bake" := hB parent hmem
  have hpU : parent.name ≠ "Updated" := hU parent hmem
  have hfind2 : findObj s parent.name = some parent := by
    rw [hpname]
    exact hfind
  simp only [runScript, scriptSetup_ok s parent aid ptracks act hfind htype hanim hact hU]
  rw [restOfSetup_ok rotation s parent aid ptracks act.frame_range.1 hB hU hpB hpU]
  rw [nla_bake_ok M rotation s parent aid ptracks act act.frame_range.1 hB hfind2 hanim hact
    hbones]
  rw [finishScript_ok M rotation s parent aid ptracks act hB hU hpB hpU hids]

/-- The scene as handed to the bake operator, in closed form: both duplicates
linked and prepared, and the parent rotated by the configured angle. -/
theorem duringBakeScene_ok (rotation : ℚ) (s : Scene G) (parent : Obj)
    (aid : ℕ) (ptracks : List Track) (act : ActionData G)
    (hfind : findObj s s.active_object = some parent)
    (htype : parent.otype = "ARMATURE")
    (hanim : parent.animation_data = some { action := some aid, nla_tracks := ptracks })
    (hact : lookupAction s aid = some act)
    (hB : ∀ o ∈ s.objects, o.name ≠ "Bake")
    (hU : ∀ o ∈ s.objects, o.name ≠ "Updated") :
    duringBakeScene rotation s = some
      { s with objects :=
          (s.objects.map (rotateByName parent.name rotation) ++
            [bakePreBake parent, updatedAfterSetup parent aid ptracks act.frame_range.1]) } := by
  have hmem : parent ∈ s.objects := findObj_mem hfind
  have hpB : parent.name ≠ "Bake" := hB parent hmem
  have hpU : parent.name ≠ "Updated" := hU parent hmem
  simp only [duringBakeScene, scriptSetup_ok s parent aid ptracks act hfind htype hanim hact hU]
  rw [restOfSetup_ok rotation s parent aid ptracks act.frame_range.1 hB hU hpB hpU]

/-! ### A concrete transform model and concrete scenes

`Multiplicative ℚ` serves as the transform group: composition is addition of
Z-angles, with `rotZ` the tautological embedding.  It separates `rotZ a`
from `(rotZ a)⁻¹` whenever `a ≠ 0`, which is what the counterexamples
need. -/

/-- The concrete transform model used by witnesses and counterexamples. -/
def Mq : RotModel (Multiplicative ℚ) :=
  { rotZ := fun d => Multiplicative.ofAdd d,
    rotZ_add := fun a b => by simp [ofAdd_add],
    rotZ_zero := rfl }

/-- A concrete original action: frames 3..10, one keyed bone "root" whose
local pose is the constant transform `ofAdd 7`. -/
def exAction : ActionData (Multiplicative ℚ) :=
  { frame_range := (3, 10),
    bones_keyed := ["root"],
    poses := fun _ _ => Multiplicative.ofAdd (7 : ℚ) }

/-- A concrete selected armature driving `exAction`. -/
def exParent : Obj :=
  { name := "Armature", otype := "ARMATURE", rotation_euler_z := 0,
    pose_bones := [{ name := "root", constraints := [] }],
    animation_data := some { action := some 0, nla_tracks := [] },
    selected := true }

/-- A concrete scene: just `exParent`, with `exAction` stored under id 0. -/
def exScene : Scene (Multiplicative ℚ) :=
  { objects := [exParent], actions := [(0, exAction)], next_action_id := 1,
    active_object := "Armature" }

/-- A concrete selected object that is not an armature. -/
def cxCube : Obj :=
  { name := "Cube", otype := "MESH", rotation_euler_z := 0, pose_bones := [],
    animation_data := none, selected := true }

/-- A concrete scene whose selected object is not an armature. -/
def cxMeshScene : Scene (Multiplicative ℚ) :=
  { objects := [cxCube], actions := [], next_action_id := 0, active_object := "Cube" }

/-- A concrete selected armature that carries no animation data at all. -/
def cxNoAnimParent : Obj :=
  { name := "Armature", otype := "ARMATURE", rotation_euler_z := 0,
    pose_bones := [{ name := "root", constraints := [] }],
    animation_data := none, selected := true }

/-- Scene whose selected armature has no animation data. -/
def cxNoAnimScene : Scene (Multiplicative ℚ) :=
  { objects := [cxNoAnimParent], actions := [], next_action_id := 0,
    active_object := "Armature" }

/-- A concrete action whose keyed bones are NOT covered by the skeleton
(`"extra"` has keys but no bone) and whose upper frame bound is below 1. -/
def cx5Action : ActionData (Multiplicative ℚ) :=
  { frame_range := (1, 0),
    bones_keyed := ["root", "extra"],
    poses := fun _ _ => Multiplicative.ofAdd (2 : ℚ) }

/-- The armature paired with `cx5Action`: it only has the bone "root". -/
def cx5Parent : Obj :=
  { name := "Armature", otype := "ARMATURE", rotation_euler_z := 0,
    pose_bones := [{ name := "root", constraints := [] }],
    animation_data := some { action := some 0, nla_tracks := [] },
    selected := true }

/-- Scene pairing a skeleton with an animation it does not cover, with an
empty bake range on top. -/
def cx5Scene : Scene (Multiplicative ℚ) :=
  { objects := [cx5Parent], actions := [(0, cx5Action)], next_action_id := 1,
    active_object := "Armature" }

/-- The spec's precondition that the skeleton's bone names cover every bone
keyed in the animation (stated from the spec's words, for claim C5). -/
@[reducible]
def skeletonCovers (parent : Obj) (act : ActionData G) : Prop :=
  ∀ bn ∈ act.bones_keyed, bn ∈ parent.pose_bones.map (fun b => b.name)

/-! ### Lookup lemmas on the result store -/

theorem option_some_or {α : Type} (a : α) (o : Option α) : (some a).or o = some a := rfl

theorem find?_id_append_new (l : List (ℕ × ActionData G)) (nid : ℕ) (ra : ActionData G)
    (h : ∀ p ∈ l, p.1 < nid) :
    (l ++ [(nid, ra)]).find? (fun p => p.1 == nid) = some (nid, ra) := by
  rw [List.find?_append]
  have hleft : l.find? (fun p => p.1 == nid) = none := by
    rw [List.find?_eq_none]
    intro p hp
    have := h p hp
    simp only [beq_iff_eq]
    omega
  rw [hleft]
  simp [List.find?_cons]

theorem find?_id_append_old (l extra : List (ℕ × ActionData G)) (i : ℕ)
    (q : ℕ × ActionData G) (h : l.find? (fun p => p.1 == i) = some q) :
    (l ++ extra).find? (fun p => p.1 == i) = some q := by
  rw [List.find?_append, h]
  rfl

/-! ### The claims -/

/-- C6: if the currently selected object's type tag is not
armature/skeleton, the script reports the error through the pop-up channel
and aborts cleanly with no side effects: the scene (objects, actions, id
supply, selection) is returned exactly as it was. -/
theorem claim_C6_not_armature (M : RotModel G) (rotation : ℚ) (s : Scene G) (parent : Obj)
    (hfind : findObj s s.active_object = some parent)
    (htype : parent.otype ≠ "ARMATURE") :
    runScript M rotation s
      = { scene := s, outcome := .popupError "The selected object is not an armature." } := by
  simp only [runScript, scriptSetup, hfind, if_pos htype]

/-- Witness for C6 at a concrete scene whose selection is a mesh. -/
theorem claim_C6_witness :
    runScript Mq 37 cxMeshScene
      = { scene := cxMeshScene,
          outcome := Outcome.popupError "The selected object is not an armature." } :=
  claim_C6_not_armature Mq 37 cxMeshScene cxCube rfl (by decide)

/-- C10: an armature selection with no animation data, or with no active
action, makes the script die with an uncaught AttributeError at the first
use of the action (line 59 resp. line 62) — after both duplicate armatures
have already been created and linked, so the scratch objects remain in the
scene. -/
theorem claim_C10_missing_action (M : RotModel G) (rotation : ℚ) (s : Scene G) (parent : Obj)
    (hfind : findObj s s.active_object = some parent)
    (htype : parent.otype = "ARMATURE")
    (hnoact : parent.animation_data = none ∨
      ∃ ad, parent.animation_data = some ad ∧ ad.action = none) :
    (runScript M rotation s).outcome = Outcome.uncaughtError "AttributeError" ∧
    ((runScript M rotation s).scene.objects.any (fun o => o.name == "Bake")) = true ∧
    ((runScript M rotation s).scene.objects.any (fun o => o.name == "Updated")) = true := by
  rcases hnoact with h | ⟨ad, had, hact0⟩
  · refine ⟨?_, ?_, ?_⟩ <;>
      simp +decide [runScript, scriptSetup, hfind, htype, h, linkObj, List.any_append]
  · refine ⟨?_, ?_, ?_⟩ <;>
      simp +decide [runScript, scriptSetup, hfind, htype, had, hact0, linkObj, updateObj,
        withAnim, List.any_append, List.any_map, Function.comp]

/-- Witness for C10 at a concrete armature without animation data. -/
theorem claim_C10_witness :
    (runScript Mq 180 cxNoAnimScene).outcome = Outcome.uncaughtError "AttributeError" ∧
    ((runScript Mq 180 cxNoAnimScene).scene.objects.any (fun o => o.name == "Bake")) = true ∧
    ((runScript Mq 180 cxNoAnimScene).scene.objects.any (fun o => o.name == "Updated")) = true :=
  claim_C10_missing_action Mq 180 cxNoAnimScene cxNoAnimParent rfl rfl (Or.inl rfl)

/-- C2: the rebaked action's frame range is exactly `[1, f1]` with `f1` the
original action's upper frame bound, independent of the true lower bound
`f0` (which is free in this statement: `act.frame_range.1` is arbitrary). -/
theorem claim_C2_frame_range (M : RotModel G) (rotation : ℚ) (s : Scene G) (parent : Obj)
    (aid : ℕ) (ptracks : List Track) (act : ActionData G)
    (hfind : findObj s s.active_object = some parent)
    (htype : parent.otype = "ARMATURE")
    (hanim : parent.animation_data = some { action := some aid, nla_tracks := ptracks })
    (hact : lookupAction s aid = some act)
    (hids : ∀ p ∈ s.actions, p.1 < s.next_action_id)
    (hB : ∀ o ∈ s.objects, o.name ≠ "Bake")
    (hU : ∀ o ∈ s.objects, o.name ≠ "Updated")
    (hbones : ∀ b ∈ parent.pose_bones, b.constraints = []) :
    lookupAction (runScript M rotation s).scene s.next_action_id
        = some (rotatedAction M rotation parent act)
      ∧ (rotatedAction M rotation parent act).frame_range = (1, act.frame_range.2) := by
  refine ⟨?_, rfl⟩
  rw [runScript_ok M rotation s parent aid ptracks act hfind htype hanim hact hids hB hU hbones]
  simp only [lookupAction]
  rw [find?_id_append_new s.actions s.next_action_id _ hids]
  rfl

/-- Witness for C2: a concrete animation with frame range `[3, 10]` rebakes
to frame range `[1, 10]` — the true lower bound 3 is discarded. -/
theorem claim_C2_witness :
    lookupAction (runScript Mq 90 exScene).scene 1 = some (rotatedAction Mq 90 exParent exAction)
      ∧ (rotatedAction Mq 90 exParent exAction).frame_range = (1, 10) :=
  claim_C2_frame_range Mq 90 exScene exParent 0 [] exAction rfl rfl rfl rfl (by decide)
    (by decide) (by decide) (by decide)

/-- C3: the run is non-destructive for the original animation — the store
still maps the original action id to the untouched original data, and the
parent object still references it through unchanged animation data. -/
theorem claim_C3_nondestructive (M : RotModel G) (rotation : ℚ) (s : Scene G) (parent : Obj)
    (aid : ℕ) (ptracks : List Track) (act : ActionData G)
    (hfind : findObj s s.active_object = some parent)
    (htype : parent.otype = "ARMATURE")
    (hanim : parent.animation_data = some { action := some aid, nla_tracks := ptracks })
    (hact : lookupAction s aid = some act)
    (hids : ∀ p ∈ s.actions, p.1 < s.next_action_id)
    (hB : ∀ o ∈ s.objects, o.name ≠ "Bake")
    (hU : ∀ o ∈ s.objects, o.name ≠ "Updated")
    (hbones : ∀ b ∈ parent.pose_bones, b.constraints = []) :
    lookupAction (runScript M rotation s).scene aid = some act
      ∧ (findObj (runScript M rotation s).scene parent.name).map (fun o => o.animation_data)
          = some (some { action := some aid, nla_tracks := ptracks }) := by
  have hpname : parent.name = s.active_object := findObj_name_eq hfind
  have hfind2 : findObj s parent.name = some parent := by
    rw [hpname]
    exact hfind
  have hfind2u : s.objects.find? (fun o => o.name == parent.name) = some parent := hfind2
  rw [runScript_ok M rotation s parent aid ptracks act hfind htype hanim hact hids hB hU hbones]
  constructor
  · cases hq : s.actions.find? (fun p => p.1 == aid) with
    | none =>
      rw [lookupAction, hq] at hact
      simp at hact
    | some q =>
      simp only [lookupAction]
      rw [find?_id_append_old s.actions _ aid q hq]
      rw [lookupAction, hq] at hact
      simpa using hact
  · simp only [findObj, List.find?_append]
    rw [find?_name_map s.objects (fun o => { o with selected := false }) parent.name
      (fun o => rfl), hfind2u]
    simp only [Option.map_some', option_some_or]
    simp [hanim]

/-- Witness for C3 at the concrete example scene. -/
theorem claim_C3_witness :
    lookupAction (runScript Mq 90 exScene).scene 0 = some exAction
      ∧ (findObj (runScript Mq 90 exScene).scene exParent.name).map (fun o => o.animation_data)
          = some (some { action := some 0, nla_tracks := [] }) :=
  claim_C3_nondestructive Mq 90 exScene exParent 0 [] exAction rfl rfl rfl rfl (by decide)
    (by decide) (by decide) (by decide)

/-- C7 (amended): on the SUCCESSFUL path the scratch 'Bake' armature is
deleted before the script finishes — no object of that name survives.  (The
failure paths do not clean up; see the counterexample.) -/
theorem claim_C7_amended_cleanup (M : RotModel G) (rotation : ℚ) (s : Scene G) (parent : Obj)
    (aid : ℕ) (ptracks : List Track) (act : ActionData G)
    (hfind : findObj s s.active_object = some parent)
    (htype : parent.otype = "ARMATURE")
    (hanim : parent.animation_data = some { action := some aid, nla_tracks := ptracks })
    (hact : lookupAction s aid = some act)
    (hids : ∀ p ∈ s.actions, p.1 < s.next_action_id)
    (hB : ∀ o ∈ s.objects, o.name ≠ "Bake")
    (hU : ∀ o ∈ s.objects, o.name ≠ "Updated")
    (hbones : ∀ b ∈ parent.pose_bones, b.constraints = []) :
    (runScript M rotation s).outcome = .completed
      ∧ ∀ o ∈ (runScript M rotation s).scene.objects, o.name ≠ "Bake" := by
  rw [runScript_ok M rotation s parent aid ptracks act hfind htype hanim hact hids hB hU hbones]
  refine ⟨rfl, ?_⟩
  intro o ho
  rcases List.mem_append.mp ho with hl | hr
  · rcases List.mem_map.mp hl with ⟨x, hx, rfl⟩
    exact hB x hx
  · rcases List.mem_singleton.mp hr with rfl
    intro hcontra
    have hname : (finalUpdated rotation parent aid s.next_action_id ptracks act).name
        = parent.name ++ "-updated" := rfl
    rw [hname] at hcontra
    have hlen := congrArg String.length hcontra
    rw [String.length_append] at hlen
    have h8 : ("-updated" : String).length = 8 := rfl
    have h4 : ("Bake" : String).length = 4 := rfl
    rw [h8, h4] at hlen
    omega

/-- Witness for the amended C7 at the concrete example scene. -/
theorem claim_C7_witness :
    (runScript Mq 90 exScene).outcome = .completed
      ∧ ∀ o ∈ (runScript Mq 90 exScene).scene.objects, o.name ≠ "Bake" :=
  claim_C7_amended_cleanup Mq 90 exScene exParent 0 [] exAction rfl rfl rfl rfl (by decide)
    (by decide) (by decide) (by decide)

/-- C7 counterexample: on the failure path of a missing action the scratch
'Bake' armature is NOT destroyed — the claim's "every exit path" is false.
Concretely, with no animation data the run dies with an uncaught error and
leaves an object named 'Bake' in the scene. -/
theorem claim_C7_counterexample :
    (runScript Mq 90 cxNoAnimScene).outcome = Outcome.uncaughtError "AttributeError"
      ∧ ((runScript Mq 90 cxNoAnimScene).scene.objects.any (fun o => o.name == "Bake")) = true := by
  exact ⟨rfl, rfl⟩

/-- C9: the parent armature's Z placement is temporarily mutated — during
the bake it reads baseline + rotation, and after the script finishes it is
back to the baseline exactly (exact rational arithmetic). -/
theorem claim_C9_temporary_rotation (M : RotModel G) (rotation : ℚ) (s : Scene G) (parent : Obj)
    (aid : ℕ) (ptracks : List Track) (act : ActionData G)
    (hfind : findObj s s.active_object = some parent)
    (htype : parent.otype = "ARMATURE")
    (hanim : parent.animation_data = some { action := some aid, nla_tracks := ptracks })
    (hact : lookupAction s aid = some act)
    (hids : ∀ p ∈ s.actions, p.1 < s.next_action_id)
    (hB : ∀ o ∈ s.objects, o.name ≠ "Bake")
    (hU : ∀ o ∈ s.objects, o.name ≠ "Updated")
    (hbones : ∀ b ∈ parent.pose_bones, b.constraints = []) :
    (duringBakeScene rotation s).map
        (fun sb => (findObj sb parent.name).map (fun o => o.rotation_euler_z))
      = some (some (parent.rotation_euler_z + radians rotation))
      ∧ (findObj (runScript M rotation s).scene parent.name).map (fun o => o.rotation_euler_z)
          = some parent.rotation_euler_z := by
  have hpname : parent.name = s.active_object := findObj_name_eq hfind
  have hfind2 : findObj s parent.name = some parent := by
    rw [hpname]
    exact hfind
  have hfind2u : s.objects.find? (fun o => o.name == parent.name) = some parent := hfind2
  constructor
  · rw [duringBakeScene_ok rotation s parent aid ptracks act hfind htype hanim hact hB hU]
    simp only [Option.map_some', findObj, List.find?_append]
    rw [find?_name_map s.objects (rotateByName parent.name rotation) parent.name
      (rotateByName_name parent.name rotation), hfind2u]
    simp only [Option.map_some', option_some_or]
    simp [rotateByName]
  · rw [runScript_ok M rotation s parent aid ptracks act hfind htype hanim hact hids hB hU
      hbones]
    simp only [findObj, List.find?_append]
    rw [find?_name_map s.objects (fun o => { o with selected := false }) parent.name
      (fun o => rfl), hfind2u]
    simp only [Option.map_some', option_some_or]

/-- C4: the last object of the final scene is the 'Updated' armature (the
archive), renamed after the parent; its track container holds, appended
after any pre-existing tracks and in this order, first the
"<skeletonName>-original" track whose strip "original" wraps the untouched
original action id starting at that action's own first frame, then the
"<skeletonName>-<rotationDeg>" track whose strip wraps the rebaked action id
starting at frame 1; the archive's own active action is cleared. -/
theorem claim_C4_archival (M : RotModel G) (rotation : ℚ) (s : Scene G) (parent : Obj)
    (aid : ℕ) (ptracks : List Track) (act : ActionData G)
    (hfind : findObj s s.active_object = some parent)
    (htype : parent.otype = "ARMATURE")
    (hanim : parent.animation_data = some { action := some aid, nla_tracks := ptracks })
    (hact : lookupAction s aid = some act)
    (hids : ∀ p ∈ s.actions, p.1 < s.next_action_id)
    (hB : ∀ o ∈ s.objects, o.name ≠ "Bake")
    (hU : ∀ o ∈ s.objects, o.name ≠ "Updated")
    (hbones : ∀ b ∈ parent.pose_bones, b.constraints = []) :
    ((runScript M rotation s).scene.objects.getLast?).map
        (fun u => (u.name, u.animation_data.map (fun a => (a.action, a.nla_tracks))))
      = some (parent.name ++ "-updated",
          some (none, ptracks ++
            [originalTrack parent.name act.frame_range.1 aid,
             rotatedTrack parent.name rotation s.next_action_id])) := by
  rw [runScript_ok M rotation s parent aid ptracks act hfind htype hanim hact hids hB hU hbones]
  simp only [List.getLast?_concat, Option.map_some']
  simp [finalUpdated, originalTrack, rotatedTrack]

/-- Witness for C4 at the concrete example scene. -/
theorem claim_C4_witness :
    ((runScript Mq 90 exScene).scene.objects.getLast?).map
        (fun u => (u.name, u.animation_data.map (fun a => (a.action, a.nla_tracks))))
      = some ("Armature" ++ "-updated",
          some (none, [originalTrack "Armature" 3 0, rotatedTrack "Armature" 90 1])) :=
  claim_C4_archival Mq 90 exScene exParent 0 [] exAction rfl rfl rfl rfl (by decide)
    (by decide) (by decide) (by decide)

/-- C5 (amended): the script performs NO ShapeMismatch / EmptyRange
validation, and archival is not all-or-nothing in any failure sense the
code could exercise: even when the skeleton's bones fail to cover the
animation's keyed bones, or the upper frame bound lies below 1, the run
still completes normally and both archive tracks are appended. -/
theorem claim_C5_amended_no_validation (M : RotModel G) (rotation : ℚ) (s : Scene G)
    (parent : Obj) (aid : ℕ) (ptracks : List Track) (act : ActionData G)
    (hfind : findObj s s.active_object = some parent)
    (htype : parent.otype = "ARMATURE")
    (hanim : parent.animation_data = some { action := some aid, nla_tracks := ptracks })
    (hact : lookupAction s aid = some act)
    (hids : ∀ p ∈ s.actions, p.1 < s.next_action_id)
    (hB : ∀ o ∈ s.objects, o.name ≠ "Bake")
    (hU : ∀ o ∈ s.objects, o.name ≠ "Updated")
    (hbones : ∀ b ∈ parent.pose_bones, b.constraints = [])
    (hbad : ¬ skeletonCovers parent act ∨ act.frame_range.2 < 1) :
    (runScript M rotation s).outcome = .completed
      ∧ ((runScript M rotation s).scene.objects.getLast?).map
          (fun u => u.animation_data.map (fun a => a.nla_tracks.length))
        = some (some (ptracks.length + 2)) := by
  rw [runScript_ok M rotation s parent aid ptracks act hfind htype hanim hact hids hB hU hbones]
  refine ⟨rfl, ?_⟩
  simp only [List.getLast?_concat, Option.map_some']
  simp [finalUpdated]

/-- C5 counterexample: a concrete scene where the skeleton does not cover
the animation's keyed bones AND the upper frame bound is 0 (< 1), yet the
run completes with no structured failure and the track container is
mutated (two tracks appended) — refuting both the ShapeMismatch/EmptyRange
failures and the all-or-nothing archival of the claim. -/
theorem claim_C5_counterexample :
    (¬ skeletonCovers cx5Parent cx5Action) ∧ cx5Action.frame_range.2 < 1
      ∧ (runScript Mq 90 cx5Scene).outcome = Outcome.completed
      ∧ ((runScript Mq 90 cx5Scene).scene.objects.getLast?).map
          (fun u => u.animation_data.map (fun a => a.nla_tracks.length))
        = some (some 2) := by
  exact ⟨by decide, by decide, rfl, rfl⟩

/-- Witness for the amended C5 at the concrete mismatched scene. -/
theorem claim_C5_witness :
    (runScript Mq 90 cx5Scene).outcome = .completed
      ∧ ((runScript Mq 90 cx5Scene).scene.objects.getLast?).map
          (fun u => u.animation_data.map (fun a => a.nla_tracks.length))
        = some (some 2) :=
  claim_C5_amended_no_validation Mq 90 cx5Scene cx5Parent 0 [] cx5Action rfl rfl rfl rfl
    (by decide) (by decide) (by decide) (by decide) (Or.inl (by decide))

/-- Witness for C9 at the concrete example scene with rotation 90. -/
theorem claim_C9_witness :
    (duringBakeScene 90 exScene).map
        (fun sb => (findObj sb exParent.name).map (fun o => o.rotation_euler_z))
      = some (some (exParent.rotation_euler_z + radians 90))
      ∧ (findObj (runScript Mq 90 exScene).scene exParent.name).map (fun o => o.rotation_euler_z)
          = some exParent.rotation_euler_z :=
  claim_C9_temporary_rotation Mq 90 exScene exParent 0 [] exAction rfl rfl rfl rfl (by decide)
    (by decide) (by decide) (by decide)

/-- C1 (amended): the script's rebake places the instances the OTHER way
round from the claim, and the recorded delta is the placement rotation
itself, not its inverse.  During the bake: the source (parent) armature is
at its baseline placement PLUS the rotation angle, the scratch target
('Bake') stays at the shared baseline, and every target bone is pinned to
the parent's same-named bone by the full-influence copy-rotation and
copy-location pair.  Consequently the recorded local transforms are
`rotZ(rotation) * (source's original local)` — the source's rotated world
pose re-expressed in the target's unrotated frame. -/
theorem claim_C1_amended (M : RotModel G) (rotation : ℚ) (s : Scene G) (parent : Obj)
    (aid : ℕ) (ptracks : List Track) (act : ActionData G)
    (hfind : findObj s s.active_object = some parent)
    (htype : parent.otype = "ARMATURE")
    (hanim : parent.animation_data = some { action := some aid, nla_tracks := ptracks })
    (hact : lookupAction s aid = some act)
    (hids : ∀ p ∈ s.actions, p.1 < s.next_action_id)
    (hB : ∀ o ∈ s.objects, o.name ≠ "Bake")
    (hU : ∀ o ∈ s.objects, o.name ≠ "Updated")
    (hbones : ∀ b ∈ parent.pose_bones, b.constraints = []) :
    ((duringBakeScene rotation s).map
        (fun sb => (findObj sb parent.name).map (fun o => o.rotation_euler_z))
      = some (some (parent.rotation_euler_z + radians rotation)))
      ∧ ((duringBakeScene rotation s).map
          (fun sb => (findObj sb "Bake").map (fun o => o.rotation_euler_z))
        = some (some parent.rotation_euler_z))
      ∧ ((duringBakeScene rotation s).map
          (fun sb => (findObj sb "Bake").map (fun o => o.pose_bones))
        = some (some (parent.pose_bones.map (fun bone =>
            { bone with constraints :=
                bone.constraints ++ copyConstraintPair parent.name bone.name }))))
      ∧ ∀ (f : ℤ) (bn : String),
          (parent.pose_bones.find? (fun b => b.name == bn)).isSome = true →
          (lookupAction (runScript M rotation s).scene s.next_action_id).map
              (fun ra => ra.poses f bn)
            = some (M.rotZ (radians rotation) * act.poses f bn) := by
  have hpname : parent.name = s.active_object := findObj_name_eq hfind
  have hfind2 : findObj s parent.name = some parent := by
    rw [hpname]
    exact hfind
  have hfind2u : s.objects.find? (fun o => o.name == parent.name) = some parent := hfind2
  have hnamepres : ∀ o : Obj, (rotateByName parent.name rotation o).name = o.name :=
    rotateByName_name parent.name rotation
  have hprefixB : ∀ o ∈ s.objects.map (rotateByName parent.name rotation), o.name ≠ "Bake" :=
    fresh_map_of_name_pres s.objects _ "Bake" hnamepres hB
  have hfdB : (s.objects.map (rotateByName parent.name rotation) ++
      [bakePreBake parent,
       updatedAfterSetup parent aid ptracks act.frame_range.1]).find?
        (fun o => o.name == "Bake") = some (bakePreBake parent) := by
    rw [List.find?_append, find?_name_eq_none _ "Bake" hprefixB]
    simp +decide only [Option.none_or, List.find?_cons, bakePreBake_name, if_true, if_false]
    rfl
  refine ⟨?_, ?_, ?_, ?_⟩
  · rw [duringBakeScene_ok rotation s parent aid ptracks act hfind htype hanim hact hB hU]
    simp only [Option.map_some', findObj, List.find?_append]
    rw [find?_name_map s.objects (rotateByName parent.name rotation) parent.name
      hnamepres, hfind2u]
    simp only [Option.map_some', option_some_or]
    simp [rotateByName]
  · rw [duringBakeScene_ok rotation s parent aid ptracks act hfind htype hanim hact hB hU]
    simp only [Option.map_some', findObj, hfdB, bakePreBake_rotation_euler_z]
  · rw [duringBakeScene_ok rotation s parent aid ptracks act hfind htype hanim hact hB hU]
    simp only [Option.map_some', findObj, hfdB, bakePreBake_pose_bones]
  · intro f bn hsome
    rw [runScript_ok M rotation s parent aid ptracks act hfind htype hanim hact hids hB hU
      hbones]
    rcases Option.isSome_iff_exists.mp hsome with ⟨b, hb⟩
    simp only [lookupAction]
    rw [find?_id_append_new s.actions s.next_action_id _ hids]
    simp only [Option.map_some', rotatedAction, hb]

/-- Witness for the amended C1: at the concrete scene with rotation 90, the
recorded local pose of "root" is the placement rotation composed with the
original local pose. -/
theorem claim_C1_witness :
    (lookupAction (runScript Mq 90 exScene).scene 1).map (fun ra => ra.poses 5 "root")
      = some (Mq.rotZ (radians 90) * exAction.poses 5 "root") :=
  (claim_C1_amended Mq 90 exScene exParent 0 [] exAction rfl rfl rfl rfl (by decide)
    (by decide) (by decide) (by decide)).2.2.2 5 "root" (by decide)

/-- C1 counterexample: with rotation 90 on the concrete scene, the claim's
set-up is refuted — during the bake the SOURCE sits at 90 degrees (not 0)
while the TARGET sits at 0 (not 90) — and the recorded local pose is
`ofAdd 97 = rotZ(90) * ofAdd 7`, which differs from the claim's
`rotZ(90)⁻¹ * ofAdd 7 = ofAdd (-83)`. -/
theorem claim_C1_counterexample :
    ((duringBakeScene 90 exScene).map
        (fun sb => (findObj sb "Armature").map (fun o => o.rotation_euler_z))
      = some (some 90))
      ∧ ((duringBakeScene 90 exScene).map
          (fun sb => (findObj sb "Bake").map (fun o => o.rotation_euler_z))
        = some (some 0))
      ∧ ((90 : ℚ) ≠ 0)
      ∧ ((lookupAction (runScript Mq 90 exScene).scene 1).map (fun ra => ra.poses 5 "root")
          = some (Multiplicative.ofAdd (97 : ℚ)))
      ∧ (specClaimRecordedLocal Mq 90 (exAction.poses 5 "root")
          = Multiplicative.ofAdd (-83 : ℚ))
      ∧ (Multiplicative.ofAdd (97 : ℚ) ≠ Multiplicative.ofAdd (-83 : ℚ)) := by
  have hdb := duringBakeScene_ok 90 exScene exParent 0 [] exAction rfl rfl rfl rfl
    (by decide) (by decide)
  refine ⟨?_, ?_, by norm_num, ?_, ?_, ?_⟩
  · rw [hdb]
    show some (some ((0 : ℚ) + 90)) = some (some 90)
    norm_num
  · rw [hdb]
    rfl
  · rw [runScript_ok Mq 90 exScene exParent 0 [] exAction rfl rfl rfl rfl (by decide)
      (by decide) (by decide) (by decide)]
    have hnid : exScene.next_action_id = 1 := rfl
    rw [hnid]
    simp only [lookupAction]
    rw [find?_id_append_new exScene.actions 1 _ (by decide)]
    simp only [Option.map_some', rotatedAction]
    have hb : exParent.pose_bones.find? (fun b => b.name == "root")
        = some { name := "root", constraints := [] } := rfl
    rw [hb]
    show some (Multiplicative.ofAdd (90 : ℚ) * Multiplicative.ofAdd (7 : ℚ))
      = some (Multiplicative.ofAdd (97 : ℚ))
    rw [← ofAdd_add]
    norm_num
  · show (Mq.rotZ 90)⁻¹ * exAction.poses 5 "root" = Multiplicative.ofAdd (-83 : ℚ)
    show (Multiplicative.ofAdd (90 : ℚ))⁻¹ * Multiplicative.ofAdd (7 : ℚ)
      = Multiplicative.ofAdd (-83 : ℚ)
    rw [← ofAdd_neg, ← ofAdd_add]
    norm_num
  · intro h
    have h2 := congrArg Multiplicative.toAdd h
    simp only [toAdd_ofAdd] at h2
    norm_num at h2

/-- Animation data holding just a reference to the action stored under
`nid`, with the given NLA tracks. -/
def bakedAnim (nid : ℕ) (ptracks : List Track) : AnimData :=
  { action := some nid, nla_tracks := ptracks }

/-- The scene for the second leg of the round-trip of claim C8: the same
objects, except that the parent armature now plays the rebaked action (the
first run stored it under the then-fresh id `s.next_action_id`); the action
store and the id supply continue from the first run's result.  This is
"rebake the rebaked animation". -/
def rebakeInputScene (M : RotModel G) (rotation : ℚ) (s : Scene G) (parent : Obj)
    (ptracks : List Track) : Scene G :=
  { objects := s.objects.map (fun o =>
      if o.name == parent.name then
        { o with animation_data := some (bakedAnim s.next_action_id ptracks) }
      else o),
    actions := (runScript M rotation s).scene.actions,
    next_action_id := (runScript M rotation s).scene.next_action_id,
    active_object := s.active_object }

/-- C8: rebaking the rebaked animation with the opposite angle reproduces
the original animation's bone poses — and hence its world-space
trajectories at the original placement — exactly (the model is exact, so
"within numerical tolerance" holds with zero error), frame for frame and
bone for bone. -/
theorem claim_C8_roundtrip (M : RotModel G) (rotation : ℚ) (s : Scene G) (parent : Obj)
    (aid : ℕ) (ptracks : List Track) (act : ActionData G)
    (hfind : findObj s s.active_object = some parent)
    (htype : parent.otype = "ARMATURE")
    (hanim : parent.animation_data = some { action := some aid, nla_tracks := ptracks })
    (hact : lookupAction s aid = some act)
    (hids : ∀ p ∈ s.actions, p.1 < s.next_action_id)
    (hB : ∀ o ∈ s.objects, o.name ≠ "Bake")
    (hU : ∀ o ∈ s.objects, o.name ≠ "Updated")
    (hbones : ∀ b ∈ parent.pose_bones, b.constraints = []) :
    ∀ (f : ℤ) (bn : String),
      (parent.pose_bones.find? (fun b => b.name == bn)).isSome = true →
      (lookupAction
          (runScript M (-rotation) (rebakeInputScene M rotation s parent ptracks)).scene
          (s.next_action_id + 1)).map
          (fun ra => M.rotZ parent.rotation_euler_z * ra.poses f bn)
        = some (M.rotZ parent.rotation_euler_z * act.poses f bn) := by
  have hrun := runScript_ok M rotation s parent aid ptracks act hfind htype hanim hact hids hB
    hU hbones
  have hpname : parent.name = s.active_object := findObj_name_eq hfind
  have hfind2u : s.objects.find? (fun o => o.name == parent.name) = some parent := by
    rw [hpname]
    exact hfind
  have hnprepoint : ∀ o : Obj,
      ((fun o => if o.name == parent.name then
          ({ o with animation_data := some (bakedAnim s.next_action_id ptracks) } : Obj)
        else o) o).name = o.name := by
    intro o
    dsimp only
    split <;> rfl
  have hobj2 : (rebakeInputScene M rotation s parent ptracks).objects
      = s.objects.map (fun o =>
          if o.name == parent.name then
            { o with animation_data := some (bakedAnim s.next_action_id ptracks) }
          else o) := rfl
  have hact2l : (rebakeInputScene M rotation s parent ptracks).actions
      = s.actions ++ [(s.next_action_id, rotatedAction M rotation parent act)] := by
    show (runScript M rotation s).scene.actions = _
    rw [hrun]
  have hnid2 : (rebakeInputScene M rotation s parent ptracks).next_action_id
      = s.next_action_id + 1 := by
    show (runScript M rotation s).scene.next_action_id = _
    rw [hrun]
  have hfindB : findObj (rebakeInputScene M rotation s parent ptracks)
      (rebakeInputScene M rotation s parent ptracks).active_object
      = some { parent with animation_data := some (bakedAnim s.next_action_id ptracks) } := by
    show (rebakeInputScene M rotation s parent ptracks).objects.find?
        (fun o => o.name == s.active_object) = _
    rw [hobj2, ← hpname]
    rw [find?_name_map s.objects _ parent.name hnprepoint, hfind2u]
    simp only [Option.map_some', beq_self_eq_true, if_true]
  have hact2 : lookupAction (rebakeInputScene M rotation s parent ptracks) s.next_action_id
      = some (rotatedAction M rotation parent act) := by
    simp only [lookupAction, hact2l]
    rw [find?_id_append_new s.actions s.next_action_id _ hids]
    rfl
  have hids2 : ∀ p ∈ (rebakeInputScene M rotation s parent ptracks).actions,
      p.1 < (rebakeInputScene M rotation s parent ptracks).next_action_id := by
    rw [hact2l, hnid2]
    intro p hp
    rcases List.mem_append.mp hp with hl | hr
    · have := hids p hl
      omega
    · rcases List.mem_singleton.mp hr with rfl
      omega
  have hB2 : ∀ o ∈ (rebakeInputScene M rotation s parent ptracks).objects, o.name ≠ "Bake" := by
    rw [hobj2]
    exact fresh_map_of_name_pres s.objects _ "Bake" hnprepoint hB
  have hU2 : ∀ o ∈ (rebakeInputScene M rotation s parent ptracks).objects,
      o.name ≠ "Updated" := by
    rw [hobj2]
    exact fresh_map_of_name_pres s.objects _ "Updated" hnprepoint hU
  have hrun2 := runScript_ok M (-rotation) (rebakeInputScene M rotation s parent ptracks)
    { parent with animation_data := some (bakedAnim s.next_action_id ptracks) }
    s.next_action_id ptracks (rotatedAction M rotation parent act)
    hfindB htype rfl hact2 hids2 hB2 hU2 hbones
  intro f bn hsome
  rw [hrun2]
  simp only [lookupAction, hact2l, hnid2]
  rw [find?_id_append_new
    (s.actions ++ [(s.next_action_id, rotatedAction M rotation parent act)])
    (s.next_action_id + 1) _ ?hlt]
  case hlt =>
    intro p hp
    rcases List.mem_append.mp hp with hl | hr
    · have := hids p hl
      omega
    · rcases List.mem_singleton.mp hr with rfl
      omega
  simp only [Option.map_some']
  rcases Option.isSome_iff_exists.mp hsome with ⟨b, hb⟩
  simp only [rotatedAction, hb]
  rw [radians, radians, M.rotZ_neg]
  rw [inv_mul_cancel_left]

/-- Witness for C8 at the concrete example scene with rotation 90: the
double rebake restores the original pose of "root" at frame 5, in world
space at the original placement. -/
theorem claim_C8_witness :
    (lookupAction
        (runScript Mq (-90) (rebakeInputScene Mq 90 exScene exParent [])).scene 2).map
        (fun ra => Mq.rotZ exParent.rotation_euler_z * ra.poses 5 "root")
      = some (Mq.rotZ exParent.rotation_euler_z * exAction.poses 5 "root") :=
  (claim_C8_roundtrip Mq 90 exScene exParent 0 [] exAction rfl rfl rfl rfl (by decide)
    (by decide) (by decide) (by decide)) 5 "root" (by decide)

end ArmatureRotate
